import Mathlib

/-!
Verification of the resilient upstream-gateway subsystem of the JeepNi
backend (src/app.py and src/routes.py): payload normalisation, the
balance response cache with stale-serving fallback, the single-flight
fetch coordinator, the sliding-window rate limiter, and request
validation for outbound SMS.

Python values are embedded as the inductive `JVal`; Python floats as
`PyFloat` (a rational together with the three non-finite points).
Monotonic timestamps, TTLs and time differences are embedded as
integers (whole seconds, the resolution at which the code's policies
and every observable quantity — `ttl`, `retry_after`,
`last_updated_seconds_ago` — are expressed; the `int()` truncations
the source applies to time differences are the identity here).
Fallible Python code (operations that can raise) is embedded with
`Option`.  String operations are implemented over `List Char` so that
all definitions evaluate inside the kernel.
-/

/-- First `n` characters of a string (Python slicing `s[:n]`). -/
def strTake (s : String) (n : ℕ) : String := ⟨s.toList.take n⟩

/-- Strip leading and trailing whitespace from a character list. -/
def trimList (l : List Char) : List Char :=
  ((l.dropWhile Char.isWhitespace).reverse.dropWhile Char.isWhitespace).reverse

/-- Python `s.strip()`. -/
def pyStrip (s : String) : String := ⟨trimList s.toList⟩

/-- Python `s.upper()` (ASCII letters). -/
def upperStr (s : String) : String := ⟨s.toList.map Char.toUpper⟩

/-- Python `s.lower()` (ASCII letters). -/
def lowerStr (s : String) : String := ⟨s.toList.map Char.toLower⟩

/-- Does the pattern occur at the head of the character list? -/
def isPrefList : List Char → List Char → Bool
  | [], _ => true
  | _ :: _, [] => false
  | a :: as, b :: bs => a == b && isPrefList as bs

/-- Python `s.startswith(pre)`. -/
def startsWithStr (s pre : String) : Bool := isPrefList pre.toList s.toList

/-- Does `pat` occur as a contiguous run inside `l`? -/
def listHasSub (pat : List Char) : List Char → Bool
  | [] => isPrefList pat []
  | c :: cs => isPrefList pat (c :: cs) || listHasSub pat cs

/-- Substring test on strings: Python's `pat in s`. -/
def strHasSub (s pat : String) : Bool := listHasSub pat.toList s.toList

/-- Python `s.split(",")` on the underlying character list. -/
def splitComma : List Char → List (List Char)
  | [] => [[]]
  | c :: cs =>
    match splitComma cs with
    | [] => [[]]
    | h :: t => if c == ',' then [] :: h :: t else (c :: h) :: t

/-- Join strings with a separator character. -/
def joinChar (sep : Char) (parts : List String) : String :=
  ⟨List.intercalate [sep] (parts.map String.toList)⟩

/-- Python float: a finite rational or one of the non-finite points. -/
inductive PyFloat where
  | finite (q : ℚ)
  | nan
  | inf
  | ninf
deriving DecidableEq

/-- `math.isfinite`. -/
def PyFloat.isFinite : PyFloat → Bool
  | .finite _ => true
  | _ => false

/-- JSON-decoded Python values, as produced by `response.json()`. -/
inductive JVal where
  | jnull
  | jbool (b : Bool)
  | jint (n : ℤ)
  | jnum (x : PyFloat)
  | jstr (s : String)
  | jlist (xs : List JVal)
  | jdict (kvs : List (String × JVal))

/-- Python truthiness of a decoded JSON value. -/
def pyTruthy : JVal → Bool
  | .jnull => false
  | .jbool b => b
  | .jint n => !(n == 0)
  | .jnum x => !(x == PyFloat.finite 0)
  | .jstr s => !(s == "")
  | .jlist xs => !xs.isEmpty
  | .jdict kvs => !kvs.isEmpty

/-- `d.get(k)` on a dict, with Python's `None` (here `jnull`) for a missing key. -/
def dget (kvs : List (String × JVal)) (k : String) : JVal :=
  match kvs.find? (fun p => p.1 == k) with
  | some p => p.2
  | none => .jnull

/-- Python's short-circuit `a or b`: `a` when truthy, else `b`. -/
def pyOr (a b : JVal) : JVal := if pyTruthy a then a else b

/-- Rendering of a non-finite or finite float as text (digit content only;
the exact decimal formatting of finite floats is abstracted, which is
adequate because only the presence of the alphabetic phrase
"rate limit" in rendered text is ever observed). -/
def floatRepr : PyFloat → String
  | .finite q => toString q.num ++ "/" ++ toString q.den
  | .nan => "nan"
  | .inf => "inf"
  | .ninf => "-inf"

mutual
/-- Python `repr` of a decoded JSON value (string quoting approximated
without escape sequences). -/
def pyRepr : JVal → String
  | .jnull => "None"
  | .jbool true => "True"
  | .jbool false => "False"
  | .jint n => toString n
  | .jnum x => floatRepr x
  | .jstr s => "'" ++ s ++ "'"
  | .jlist xs => "[" ++ pyReprList xs ++ "]"
  | .jdict kvs => "\x7b" ++ pyReprDict kvs ++ "\x7d"

/-- Comma-joined reprs of list elements. -/
def pyReprList : List JVal → String
  | [] => ""
  | [x] => pyRepr x
  | x :: y :: xs => pyRepr x ++ ", " ++ pyReprList (y :: xs)

/-- Comma-joined `'key': value` reprs of dict entries. -/
def pyReprDict : List (String × JVal) → String
  | [] => ""
  | [p] => "'" ++ p.1 ++ "': " ++ pyRepr p.2
  | p :: q :: ps => "'" ++ p.1 ++ "': " ++ pyRepr p.2 ++ ", " ++ pyReprDict (q :: ps)
end

/-- Python `str(v)`: the string itself at top level, `repr` otherwise. -/
def pyStrTop : JVal → String
  | .jstr s => s
  | v => pyRepr v

/-- Value of a nonempty digit run. -/
def digitsVal (l : List Char) : ℕ :=
  l.foldl (fun acc c => acc * 10 + (c.toNat - '0'.toNat)) 0

/-- Parse a nonempty all-digit run. -/
def parseNatDigits (l : List Char) : Option ℕ :=
  if !l.isEmpty && l.all Char.isDigit then some (digitsVal l) else none

/-- Parse the mantissa of a float literal: digits with an optional single
point, at least one digit in total. -/
def parseMantissa (l : List Char) : Option ℚ :=
  let before := l.takeWhile (fun c => !(c == '.'))
  match l.dropWhile (fun c => !(c == '.')) with
  | [] => (parseNatDigits before).map (fun n => (n : ℚ))
  | '.' :: frac =>
    if frac.any (fun c => c == '.') then none
    else if before.isEmpty && frac.isEmpty then none
    else if before.all Char.isDigit && frac.all Char.isDigit then
      some ((digitsVal (before ++ frac) : ℚ) / ((10 : ℚ) ^ frac.length))
    else none
  | _ :: _ => none

/-- Python `float(s)` on a string: strips whitespace, accepts a sign,
`nan`, `inf`/`infinity`, and decimal literals with an optional exponent.
`none` models the `ValueError` raised on anything else. -/
def parseFloat (s : String) : Option PyFloat :=
  let t := (trimList s.toList).map Char.toLower
  let signed : Bool × List Char :=
    match t with
    | '+' :: r => (false, r)
    | '-' :: r => (true, r)
    | r => (false, r)
  let neg := signed.1
  let u := signed.2
  if u == "nan".toList then some .nan
  else if u == "inf".toList || u == "infinity".toList then
    some (if neg then .ninf else .inf)
  else
    let mant := u.takeWhile (fun c => !(c == 'e'))
    let expPart : Option ℤ :=
      match u.dropWhile (fun c => !(c == 'e')) with
      | [] => some 0
      | 'e' :: es =>
        match es with
        | '+' :: ds => (parseNatDigits ds).map (fun n => (n : ℤ))
        | '-' :: ds => (parseNatDigits ds).map (fun n => -(n : ℤ))
        | ds => (parseNatDigits ds).map (fun n => (n : ℤ))
      | _ :: _ => none
    match parseMantissa mant, expPart with
    | some m, some e => some (.finite ((if neg then -m else m) * (10 : ℚ) ^ e))
    | _, _ => none

/-- Python `int(s)` on a string: strips whitespace, accepts a sign and a
nonempty digit run; `none` models the `ValueError` otherwise. -/
def pyParseInt (s : String) : Option ℤ :=
  match trimList s.toList with
  | '+' :: r => (parseNatDigits r).map (fun n => (n : ℤ))
  | '-' :: r => (parseNatDigits r).map (fun n => -(n : ℤ))
  | r => (parseNatDigits r).map (fun n => (n : ℤ))

/-- Python `float(v)` on a decoded JSON value; `none` models
`TypeError`/`ValueError`. -/
def pyFloatCast : JVal → Option PyFloat
  | .jnull => none
  | .jbool b => some (.finite (if b then 1 else 0))
  | .jint n => some (.finite (n : ℚ))
  | .jnum x => some x
  | .jstr s => parseFloat s
  | .jlist _ => none
  | .jdict _ => none

/-- `_to_float` from src/app.py: `float(value)` with failures caught and
turned into `0.0`. -/
def toFloatPy (v : JVal) : PyFloat := (pyFloatCast v).getD (.finite 0)

/-- `_normalise_api_key` from src/app.py: empty or placeholder-looking
keys normalise to the empty string. -/
def normaliseApiKey (raw : Option String) : String :=
  match raw with
  | none => ""
  | some k0 =>
    if k0 == "" then ""
    else
      let k := pyStrip k0
      if k == "" then ""
      else
        let u := upperStr k
        if startsWithStr u "SET_" || startsWithStr u "ENTER_" || startsWithStr u "REPLACE_"
            || startsWithStr u "YOUR_" || strHasSub u "CHANGE" then ""
        else k

/-- The per-entry text fragments collected from a dict by
`_is_rate_limit_payload`: the key, then each element of a list value or
the value itself, all passed through `str`. -/
def rlFragments (kvs : List (String × JVal)) : List String :=
  (kvs.map (fun p =>
    p.1 :: (match p.2 with
      | .jlist xs => xs.map pyStrTop
      | v => [pyStrTop v]))).flatten

/-- `_is_rate_limit_payload` from src/app.py: best-effort detection of a
rate-limit response by flattening the payload to text and searching for
the substring "rate limit" case-insensitively. -/
def isRateLimitPayload (v : JVal) : Bool :=
  match v with
  | .jnull => false
  | .jstr s => strHasSub (lowerStr s) "rate limit"
  | .jdict kvs => strHasSub (lowerStr (joinChar ' ' (rlFragments kvs))) "rate limit"
  | v => strHasSub (lowerStr (pyStrTop v)) "rate limit"

/-- `_normalise_recipients` from src/app.py: normalise raw recipient
input into a comma-separated string. -/
def normaliseRecipients : JVal → String
  | .jnull => ""
  | .jstr s => joinChar ','
      (((splitComma s.toList).map (fun seg => (⟨trimList seg⟩ : String))).filter
        (fun seg => !(seg == "")))
  | .jlist xs => joinChar ','
      ((xs.map (fun v => pyStrip (pyStrTop v))).filter (fun seg => !(seg == "")))
  | v => pyStrip (pyStrTop v)

/-- Outcome of a `send_sms` request, up to the point where an upstream
call would be made.  `forward` carries the form fields the gateway
posts upstream; `crash` models an uncaught exception (e.g. `.strip()`
or `.get` on a non-string/non-dict). -/
inductive SendOutcome where
  | notConfigured (error : String)
  | rejected (error : String) (status : ℤ)
  | forward (apikey number message sendername : String)
  | crash

/-- `send_sms` from src/app.py: configuration check and request
validation, ending either in a structured failure or in the upstream
form fields. -/
def sendSmsRoute (apiKey senderDefault : String) (body : Option JVal) : SendOutcome :=
  if apiKey == "" then
    .notConfigured "SMS service is not configured on the server."
  else
    let payload : JVal :=
      match body with
      | none => .jdict []
      | some v => if pyTruthy v then v else .jdict []
    match payload with
    | .jdict kvs =>
      match pyOr (dget kvs "message") (.jstr "") with
      | .jstr m =>
        let message := pyStrip m
        match pyOr (pyOr (dget kvs "sender") (dget kvs "sendername")) (.jstr "") with
        | .jstr sv =>
          let senderName := if pyStrip sv == "" then senderDefault else pyStrip sv
          let recipients :=
            normaliseRecipients (pyOr (pyOr (dget kvs "number") (dget kvs "numbers"))
              (dget kvs "recipients"))
          if recipients == "" then
            .rejected "At least one recipient number is required." 400
          else if message == "" then
            .rejected "Message content is required." 400
          else if 160 < message.length then
            .rejected "Message exceeds 160 character limit for single SMS segment." 400
          else
            .forward apiKey recipients message (strTake senderName 11)
        | _ => .crash
      | _ => .crash
    | _ => .crash

/-- Canonical balance payload produced by `_build_balance_payload` and
re-served (possibly decorated) from the success cache.  Optional fields
model dict keys that are present only on some paths; `some none` in
`last_updated_seconds_ago` models the key being present with value
`None`. -/
structure BalancePayload where
  success : Bool
  balance : Option PyFloat
  account : JVal
  raw : JVal
  stale : Bool
  note : Option String
  retrieved_at : String
  retry_after : Option ℤ
  last_updated_seconds_ago : Option (Option ℤ)

/-- Error payload cached and returned on upstream failures. -/
structure ErrPayload where
  error : JVal
  retry_after : Option ℤ
  details : Option JVal

/-- Dispatch of `_build_balance_payload`: which record the fields are
read from (`raw[0]` for a list, the value under `"account"` when truthy
for a dict, else the dict itself, `{}` for scalars). -/
def accountData : JVal → JVal
  | .jlist xs =>
    match xs with
    | [] => .jdict []
    | x :: _ => x
  | .jdict kvs =>
    let a := dget kvs "account"
    if pyTruthy a then a else .jdict kvs
  | _ => .jdict []

/-- The raw balance attribute resolved by the source's fallback chain
`balance or credit_balance or credits or 0`. -/
def balanceRaw (kvs : List (String × JVal)) : JVal :=
  pyOr (pyOr (pyOr (dget kvs "balance") (dget kvs "credit_balance")) (dget kvs "credits"))
    (.jint 0)

/-- Numeric balance after coercion and the non-finite clamp. -/
def resolveBalance (kvs : List (String × JVal)) : PyFloat :=
  let b := toFloatPy (balanceRaw kvs)
  if b.isFinite then b else .finite 0

/-- `_build_balance_payload` from src/app.py.  `nowIso` stands for the
value of `datetime.utcnow().isoformat()` at the call.  `none` models the
`AttributeError` raised when the dispatched account record is not a
dict (`.get` on a non-dict). -/
def buildBalancePayload (senderDefault nowIso : String) (raw : JVal) : Option BalancePayload :=
  match accountData raw with
  | .jdict kvs =>
    some
      { success := true
        balance := some (resolveBalance kvs)
        account := .jdict
          [("id", pyOr (dget kvs "account_id") (dget kvs "id")),
           ("name", pyOr (pyOr (dget kvs "account_name") (dget kvs "name")) (.jstr "")),
           ("status", pyOr (pyOr (dget kvs "status") (dget kvs "account_status"))
              (.jstr "unknown")),
           ("email", pyOr (dget kvs "email") (.jstr "")),
           ("sender", pyOr (pyOr (dget kvs "sendername") (dget kvs "sender_name"))
              (.jstr senderDefault))]
        raw := raw
        stale := false
        note := none
        retrieved_at := nowIso ++ "Z"
        retry_after := none
        last_updated_seconds_ago := none }
  | _ => none

/-- The module-level success cache `_balance_cache`. -/
structure SuccessCache where
  timestamp : ℤ
  ttl : ℤ
  payload : Option BalancePayload
  status : ℤ
  retrieved_timestamp : ℤ

/-- The module-level error cache `_balance_error_cache`. -/
structure ErrorCache where
  timestamp : ℤ
  ttl : ℤ
  payload : Option ErrPayload
  status : ℤ

/-- The success cache as first initialised at import time. -/
def initSuccessCache : SuccessCache :=
  { timestamp := 0, ttl := 0, payload := none, status := 200, retrieved_timestamp := 0 }

/-- The error cache as first initialised at import time (also the value
it is reset to whenever a success supersedes it). -/
def initErrorCache : ErrorCache :=
  { timestamp := 0, ttl := 0, payload := none, status := 429 }

/-- The success-cache read guard of `get_sms_balance`: payload present,
status below 400, positive TTL, and age strictly below the TTL. -/
def readSuccess (c : SuccessCache) (now : ℤ) : Option (BalancePayload × ℤ) :=
  match c.payload with
  | some p =>
    if c.status < 400 ∧ 0 < c.ttl ∧ now - c.timestamp < c.ttl then some (p, c.status)
    else none
  | none => none

/-- The error-cache read guard of `get_sms_balance`: payload present,
positive TTL, age strictly below the TTL (no status condition). -/
def readError (c : ErrorCache) (now : ℤ) : Option (ErrPayload × ℤ) :=
  match c.payload with
  | some p => if 0 < c.ttl ∧ now - c.timestamp < c.ttl then some (p, c.status) else none
  | none => none

/-- What one request sees and returns from `get_sms_balance`. -/
inductive BalanceResult where
  | ok (p : BalancePayload) (status : ℤ)
  | err (p : ErrPayload) (status : ℤ)
  | crash

/-- The cache check performed both on the fast path and again after
acquiring the fetch lock: success cache first, then error cache. -/
def checkCaches (sc : SuccessCache) (ec : ErrorCache) (now : ℤ) : Option BalanceResult :=
  match readSuccess sc now with
  | some ps => some (.ok ps.1 ps.2)
  | none =>
    match readError ec now with
    | some ps => some (.err ps.1 ps.2)
    | none => none

/-- Configuration consumed by the balance endpoint: the success-cache
TTL `BALANCE_CACHE_SECONDS`, the sender default, and the wall-clock
string used for `retrieved_at`. -/
structure Cfg where
  ttl : ℤ
  sender : String
  nowIso : String

/-- Outcome of the one upstream account call a request may make. -/
inductive UpOutcome where
  | jsonOk (body : JVal)
  | textOk (text : String)
  | httpErr (status : ℤ) (retryHdr : Option String) (bodyJson : Option JVal) (text : String)
  | transport

/-- Truthiness test the source applies to the `Retry-After` header
(`if retry_after_header:`): present and non-empty. -/
def hdrTruthy : Option String → Bool
  | none => false
  | some s => !(s == "")

/-- The error body used by the balance error handler: the decoded JSON
body when it decodes, else `{"error": <raw text>}`. -/
def errBodyOf (bodyJson : Option JVal) (text : String) : JVal :=
  match bodyJson with
  | some b => b
  | none => .jdict [("error", .jstr text)]

/-- Effective status after the two rate-limit coercions: a truthy
`Retry-After` header on a non-429 status, else the body heuristic. -/
def effStatus (status : ℤ) (retryHdr : Option String) (errBody : JVal) : ℤ :=
  if status ≠ 429 then
    if hdrTruthy retryHdr then 429
    else if isRateLimitPayload errBody then 429
    else status
  else status

/-- `retry_after` computed on an effective 429: the parsed header if it
parses, else the configured TTL (or 30 when not positive), floored at 5. -/
def retryAfterOf (cfg : Cfg) (retryHdr : Option String) : ℤ :=
  let parsed : Option ℤ :=
    match retryHdr with
    | none => none
    | some h => pyParseInt h
  max (parsed.getD (if 0 < cfg.ttl then cfg.ttl else 30)) 5

/-- TTL applied to cached non-429 errors: clamped between 5 and 30, or
10 when no positive TTL is configured. -/
def errorTtlOf (cfg : Cfg) : ℤ :=
  if 0 < cfg.ttl then max 5 (min cfg.ttl 30) else 10

/-- The decorated stale payload re-served on a rate-limited refresh:
the cached success with `stale`, `note`, `retry_after` set and
`last_updated_seconds_ago` computed from the preserved
`retrieved_timestamp` `r` (`None` when `r` is falsy). -/
def stalePayloadOf (cached : BalancePayload) (ra now r : ℤ) : BalancePayload :=
  { cached with
    stale := true
    success := true
    note := some "Showing cached balance. Semaphore rate limit reached; please retry later."
    retry_after := some ra
    last_updated_seconds_ago := some (if r ≠ 0 then some (max (now - r) 0) else none) }

/-- The body of `get_sms_balance` past the post-lock cache re-check: the
upstream call, normalisation, rate-limit policy, stale fallback and the
cache writes, returning the HTTP result and the two cache states. -/
def fetchAndStore (cfg : Cfg) (sc : SuccessCache) (ec : ErrorCache) (out : UpOutcome)
    (now : ℤ) : BalanceResult × SuccessCache × ErrorCache :=
  match out with
  | .jsonOk body =>
    match buildBalancePayload cfg.sender cfg.nowIso body with
    | none => (.crash, sc, ec)
    | some p =>
      let cacheDuration := max cfg.ttl 0
      if 0 < cacheDuration then
        (.ok p 200,
         { timestamp := now, ttl := cacheDuration, payload := some p, status := 200,
           retrieved_timestamp := now },
         initErrorCache)
      else (.ok p 200, sc, ec)
  | .textOk text =>
    let p : BalancePayload :=
      { success := true, balance := none, account := .jdict [], raw := .jstr text,
        stale := false, note := some "Semaphore returned a non-JSON response.",
        retrieved_at := cfg.nowIso ++ "Z", retry_after := none,
        last_updated_seconds_ago := none }
    let cacheDuration := max cfg.ttl 0
    if 0 < cacheDuration then
      (.ok p 200,
       { timestamp := now, ttl := cacheDuration, payload := some p, status := 200,
         retrieved_timestamp := now },
       initErrorCache)
    else (.ok p 200, sc, ec)
  | .httpErr status retryHdr bodyJson text =>
    let errBody := errBodyOf bodyJson text
    let st := effStatus status retryHdr errBody
    if st = 429 then
      let ra := retryAfterOf cfg retryHdr
      match sc.payload, decide (sc.status < 400) with
      | some cached, true =>
        let r := sc.retrieved_timestamp
        let stalePayload := stalePayloadOf cached ra now r
        (.ok stalePayload 200,
         { timestamp := now, ttl := ra, payload := some stalePayload, status := 200,
           retrieved_timestamp := if r ≠ 0 then r else now },
         initErrorCache)
      | _, _ =>
        let p : ErrPayload :=
          { error := .jstr "Semaphore rate limit reached. Please wait before refreshing the balance."
            retry_after := some ra
            details := some errBody }
        (.err p 429, sc, { timestamp := now, ttl := ra, payload := some p, status := 429 })
    else
      let p : ErrPayload := { error := errBody, retry_after := none, details := none }
      (.err p st, sc,
       { timestamp := now, ttl := errorTtlOf cfg, payload := some p, status := st })
  | .transport =>
    let p : ErrPayload :=
      { error := .jstr "Unable to reach SMS service. Please try again later."
        retry_after := none, details := none }
    (.err p 502, sc,
     { timestamp := now, ttl := errorTtlOf cfg, payload := some p, status := 502 })

/-- The fixed not-configured failure both endpoints return. -/
def notConfiguredPayload : ErrPayload :=
  { error := .jstr "SMS service is not configured on the server.", retry_after := none,
    details := none }

/-- `get_sms_balance` as seen by a single request with no interleaving:
configuration check, cache fast path, then (the double-check collapses
under one fixed `now`) the upstream call via `fetchAndStore`. -/
def getBalanceRoute (apiKey : String) (cfg : Cfg) (sc : SuccessCache) (ec : ErrorCache)
    (out : UpOutcome) (now : ℤ) : BalanceResult × SuccessCache × ErrorCache :=
  if apiKey == "" then (.err notConfiguredPayload 500, sc, ec)
  else
    match checkCaches sc ec now with
    | some r => (r, sc, ec)
    | none => fetchAndStore cfg sc ec out now

/-- `SimpleRateLimiter.is_allowed` pruning step: keep the timestamps
strictly inside the trailing window (`req_time > now - window`). -/
def pruneWindow (l : List ℤ) (now window : ℤ) : List ℤ :=
  l.filter (fun t => now - window < t)

/-- `SimpleRateLimiter.is_allowed` for one key, from src/routes.py:
prune, reject without recording when at capacity, else record `now`.
Returns the decision and the stored timestamp list. -/
def isAllowed (l : List ℤ) (maxRequests : ℕ) (window now : ℤ) : Bool × List ℤ :=
  let kept := pruneWindow l now window
  if maxRequests ≤ kept.length then (false, kept) else (true, kept ++ [now])

/-- Minimum of a timestamp list (Python `min` on a nonempty list). -/
def oldestOf (t : ℤ) (ts : List ℤ) : ℤ := ts.foldl min t

/-- `SimpleRateLimiter.get_retry_after` for one key, from
src/routes.py: seconds until the oldest recorded request leaves the
window, clamped at zero; zero when nothing is recorded. -/
def getRetryAfter (l : List ℤ) (window now : ℤ) : ℤ :=
  match l with
  | [] => 0
  | t :: ts =>
    let reset := oldestOf t ts + window
    if now < reset then reset - now else 0

/-- Program counter of one request thread inside `get_sms_balance`:
the fast-path check, the wait on `_balance_fetch_lock`, the post-lock
re-check, the upstream call, and completion. -/
inductive TPC where
  | start
  | waitLock
  | owner
  | calling
  | done (r : BalanceResult)

/-- Interleaving state of `n` concurrent balance requests: the two
caches, the fetch-lock holder, each thread's position, and a history
count of upstream calls issued. -/
structure CState (n : ℕ) where
  sc : SuccessCache
  ec : ErrorCache
  lock : Option (Fin n)
  tpc : Fin n → TPC
  calls : ℕ

/-- One atomic step of thread `i`.  Cache reads/writes happen under the
cache lock and are atomic; a thread at `waitLock` proceeds only when
the fetch lock is free; the upstream call plus its cache write is the
`calling` step, whose outcome is `oracle k` for the `k`-th call issued.
All steps of one cache-cold burst share one monotonic instant `now`. -/
def step (cfg : Cfg) (oracle : ℕ → UpOutcome) (now : ℤ) {n : ℕ} (s : CState n)
    (i : Fin n) : CState n :=
  match s.tpc i with
  | .start =>
    match checkCaches s.sc s.ec now with
    | some r => { s with tpc := Function.update s.tpc i (.done r) }
    | none => { s with tpc := Function.update s.tpc i .waitLock }
  | .waitLock =>
    match s.lock with
    | none => { s with lock := some i, tpc := Function.update s.tpc i .owner }
    | some _ => s
  | .owner =>
    match checkCaches s.sc s.ec now with
    | some r => { s with lock := none, tpc := Function.update s.tpc i (.done r) }
    | none => { s with tpc := Function.update s.tpc i .calling }
  | .calling =>
    let rse := fetchAndStore cfg s.sc s.ec (oracle s.calls) now
    { sc := rse.2.1, ec := rse.2.2, lock := none,
      tpc := Function.update s.tpc i (.done rse.1), calls := s.calls + 1 }
  | .done _ => s

/-- Run a schedule (a list of thread choices) from a state. -/
def runSched (cfg : Cfg) (oracle : ℕ → UpOutcome) (now : ℤ) {n : ℕ} :
    List (Fin n) → CState n → CState n
  | [], s => s
  | i :: rest, s => runSched cfg oracle now rest (step cfg oracle now s i)

/-- An upstream outcome the handler stores: every outcome except a JSON
2xx body on which the normaliser raises (that exception skips the cache
write). -/
def handledOutcome (cfg : Cfg) : UpOutcome → Bool
  | .jsonOk body => (buildBalancePayload cfg.sender cfg.nowIso body).isSome
  | _ => true

/-- The initial burst state: caches as at import time, lock free, all
threads at the fast-path check, no upstream call issued yet. -/
def initBurst (n : ℕ) : CState n :=
  { sc := initSuccessCache, ec := initErrorCache, lock := none,
    tpc := fun _ => .start, calls := 0 }

/-- Is a thread finished? -/
def TPC.isDone : TPC → Bool
  | .done _ => true
  | _ => false

lemma retryAfterOf_ge_five (cfg : Cfg) (hdr : Option String) : 5 ≤ retryAfterOf cfg hdr :=
  le_max_right _ _

lemma errorTtlOf_pos (cfg : Cfg) : 0 < errorTtlOf cfg := by
  unfold errorTtlOf
  split
  · have h5 : (5 : ℤ) ≤ max 5 (min cfg.ttl 30) := le_max_left _ _
    omega
  · norm_num

lemma checkCaches_some_of_readSuccess {sc : SuccessCache} {ec : ErrorCache} {now : ℤ}
    {x : BalancePayload × ℤ} (h : readSuccess sc now = some x) :
    (checkCaches sc ec now).isSome := by
  simp [checkCaches, h]

lemma checkCaches_some_of_readError {sc : SuccessCache} {ec : ErrorCache} {now : ℤ}
    {x : ErrPayload × ℤ} (h : readError ec now = some x) :
    (checkCaches sc ec now).isSome := by
  unfold checkCaches
  cases hs : readSuccess sc now <;> simp [h]

lemma readSuccess_write (p : BalancePayload) (now T r : ℤ) (hT : 0 < T) :
    readSuccess ⟨now, T, some p, 200, r⟩ now = some (p, 200) := by
  unfold readSuccess
  simp only
  rw [if_pos]
  exact ⟨by norm_num, hT, by omega⟩

lemma readError_write (p : ErrPayload) (now T st : ℤ) (hT : 0 < T) :
    readError ⟨now, T, some p, st⟩ now = some (p, st) := by
  unfold readError
  simp only
  rw [if_pos]
  exact ⟨hT, by omega⟩

lemma fetchAndStore_warm (cfg : Cfg) (sc : SuccessCache) (ec : ErrorCache) (out : UpOutcome)
    (now : ℤ) (httl : 0 < cfg.ttl) (hout : handledOutcome cfg out = true) :
    (checkCaches (fetchAndStore cfg sc ec out now).2.1
      (fetchAndStore cfg sc ec out now).2.2 now).isSome := by
  have hcd : 0 < max cfg.ttl 0 := by omega
  cases out with
  | jsonOk body =>
    rcases hb : buildBalancePayload cfg.sender cfg.nowIso body with _ | p
    · rw [handledOutcome, hb] at hout
      simp at hout
    · simp only [fetchAndStore, hb]
      rw [if_pos hcd]
      exact checkCaches_some_of_readSuccess (readSuccess_write p now _ now hcd)
  | textOk text =>
    simp only [fetchAndStore]
    rw [if_pos hcd]
    exact checkCaches_some_of_readSuccess (readSuccess_write _ now _ now hcd)
  | httpErr status retryHdr bodyJson text =>
    simp only [fetchAndStore]
    split
    · rcases hp : sc.payload with _ | cached
      · simp only [hp]
        exact checkCaches_some_of_readError
          (readError_write _ now _ _ (by have := retryAfterOf_ge_five cfg retryHdr; omega))
      · rcases hst : decide (sc.status < 400) with _ | _
        · simp only [hp, hst]
          exact checkCaches_some_of_readError
            (readError_write _ now _ _ (by have := retryAfterOf_ge_five cfg retryHdr; omega))
        · simp only [hp, hst]
          exact checkCaches_some_of_readSuccess
            (readSuccess_write _ now _ _ (by have := retryAfterOf_ge_five cfg retryHdr; omega))
    · exact checkCaches_some_of_readError (readError_write _ now _ _ (errorTtlOf_pos cfg))
  | transport =>
    exact checkCaches_some_of_readError (readError_write _ now _ _ (errorTtlOf_pos cfg))

/-- Invariant of the concurrent balance machine during one cache-cold
burst: lock discipline for the post-lock region, at most one upstream
call, cold caches and no finished thread before the first call, warm
caches after it, and a thread about to call only before any call. -/
def BurstInv (now : ℤ) {n : ℕ} (s : CState n) : Prop :=
  (∀ i, (s.tpc i = .owner ∨ s.tpc i = .calling) → s.lock = some i) ∧
  s.calls ≤ 1 ∧
  (s.calls = 0 → checkCaches s.sc s.ec now = none ∧ ∀ i, (s.tpc i).isDone = false) ∧
  (s.calls = 1 → (checkCaches s.sc s.ec now).isSome) ∧
  (∀ i, s.tpc i = .calling → s.calls = 0)

lemma step_preserves_inv (cfg : Cfg) (oracle : ℕ → UpOutcome) (now : ℤ) {n : ℕ}
    (httl : 0 < cfg.ttl) (hout : handledOutcome cfg (oracle 0) = true)
    (s : CState n) (i : Fin n) (h : BurstInv now s) : BurstInv now (step cfg oracle now s i) := by
  obtain ⟨h1, h2, h3, h4, h5⟩ := h
  cases ht : s.tpc i with
  | start =>
    cases hc : checkCaches s.sc s.ec now with
    | some r =>
      have hstep : step cfg oracle now s i =
          { s with tpc := Function.update s.tpc i (.done r) } := by
        simp only [step, ht, hc]
      rw [hstep]
      refine ⟨?_, ?_, ?_, ?_, ?_⟩ <;> dsimp only
      · intro j hj
        rcases eq_or_ne j i with rfl | hne
        · simp [Function.update_same] at hj
        · rw [Function.update_noteq hne] at hj
          exact h1 j hj
      · exact h2
      · intro hz
        exact absurd (h3 hz).1 (by simp [hc])
      · exact h4
      · intro j hj
        rcases eq_or_ne j i with rfl | hne
        · simp [Function.update_same] at hj
        · rw [Function.update_noteq hne] at hj
          exact h5 j hj
    | none =>
      have hstep : step cfg oracle now s i =
          { s with tpc := Function.update s.tpc i .waitLock } := by
        simp only [step, ht, hc]
      rw [hstep]
      refine ⟨?_, ?_, ?_, ?_, ?_⟩ <;> dsimp only
      · intro j hj
        rcases eq_or_ne j i with rfl | hne
        · simp [Function.update_same] at hj
        · rw [Function.update_noteq hne] at hj
          exact h1 j hj
      · exact h2
      · intro hz
        refine ⟨(h3 hz).1, fun j => ?_⟩
        rcases eq_or_ne j i with rfl | hne
        · simp [Function.update_same, TPC.isDone]
        · rw [Function.update_noteq hne]
          exact (h3 hz).2 j
      · exact h4
      · intro j hj
        rcases eq_or_ne j i with rfl | hne
        · simp [Function.update_same] at hj
        · rw [Function.update_noteq hne] at hj
          exact h5 j hj
  | waitLock =>
    cases hl : s.lock with
    | none =>
      have hstep : step cfg oracle now s i =
          { s with lock := some i, tpc := Function.update s.tpc i .owner } := by
        simp only [step, ht, hl]
      rw [hstep]
      refine ⟨?_, ?_, ?_, ?_, ?_⟩ <;> dsimp only
      · intro j hj
        rcases eq_or_ne j i with rfl | hne
        · rfl
        · rw [Function.update_noteq hne] at hj
          have hcontra := h1 j hj
          rw [hl] at hcontra
          simp at hcontra
      · exact h2
      · intro hz
        refine ⟨(h3 hz).1, fun j => ?_⟩
        rcases eq_or_ne j i with rfl | hne
        · simp [Function.update_same, TPC.isDone]
        · rw [Function.update_noteq hne]
          exact (h3 hz).2 j
      · exact h4
      · intro j hj
        rcases eq_or_ne j i with rfl | hne
        · simp [Function.update_same] at hj
        · rw [Function.update_noteq hne] at hj
          exact h5 j hj
    | some k =>
      have hstep : step cfg oracle now s i = s := by simp only [step, ht, hl]
      rw [hstep]
      exact ⟨h1, h2, h3, h4, h5⟩
  | owner =>
    have hli : s.lock = some i := h1 i (Or.inl ht)
    cases hc : checkCaches s.sc s.ec now with
    | some r =>
      have hstep : step cfg oracle now s i =
          { s with lock := none, tpc := Function.update s.tpc i (.done r) } := by
        simp only [step, ht, hc]
      rw [hstep]
      refine ⟨?_, ?_, ?_, ?_, ?_⟩ <;> dsimp only
      · intro j hj
        rcases eq_or_ne j i with rfl | hne
        · simp [Function.update_same] at hj
        · rw [Function.update_noteq hne] at hj
          have hcontra := h1 j hj
          rw [hli] at hcontra
          exact absurd (Option.some.inj hcontra).symm hne
      · exact h2
      · intro hz
        exact absurd (h3 hz).1 (by simp [hc])
      · exact h4
      · intro j hj
        rcases eq_or_ne j i with rfl | hne
        · simp [Function.update_same] at hj
        · rw [Function.update_noteq hne] at hj
          exact h5 j hj
    | none =>
      have hz : s.calls = 0 := by
        have h01 : s.calls = 0 ∨ s.calls = 1 := by omega
        rcases h01 with h0 | h0
        · exact h0
        · exact absurd (h4 h0) (by simp [hc])
      have hstep : step cfg oracle now s i =
          { s with tpc := Function.update s.tpc i .calling } := by
        simp only [step, ht, hc]
      rw [hstep]
      refine ⟨?_, ?_, ?_, ?_, ?_⟩ <;> dsimp only
      · intro j hj
        rcases eq_or_ne j i with rfl | hne
        · exact hli
        · rw [Function.update_noteq hne] at hj
          exact h1 j hj
      · exact h2
      · intro hz2
        refine ⟨(h3 hz2).1, fun j => ?_⟩
        rcases eq_or_ne j i with rfl | hne
        · simp [Function.update_same, TPC.isDone]
        · rw [Function.update_noteq hne]
          exact (h3 hz2).2 j
      · exact h4
      · intro j hj
        exact hz
  | calling =>
    have hz : s.calls = 0 := h5 i ht
    have hli : s.lock = some i := h1 i (Or.inr ht)
    have hstep : step cfg oracle now s i =
        { sc := (fetchAndStore cfg s.sc s.ec (oracle s.calls) now).2.1,
          ec := (fetchAndStore cfg s.sc s.ec (oracle s.calls) now).2.2,
          lock := none,
          tpc := Function.update s.tpc i
            (.done (fetchAndStore cfg s.sc s.ec (oracle s.calls) now).1),
          calls := s.calls + 1 } := by
      simp only [step, ht]
    rw [hstep]
    refine ⟨?_, ?_, ?_, ?_, ?_⟩ <;> dsimp only
    · intro j hj
      rcases eq_or_ne j i with rfl | hne
      · simp [Function.update_same] at hj
      · rw [Function.update_noteq hne] at hj
        have hcontra := h1 j hj
        rw [hli] at hcontra
        exact absurd (Option.some.inj hcontra).symm hne
    · omega
    · intro hfalse
      exact absurd hfalse (by omega)
    · intro _
      rw [hz]
      exact fetchAndStore_warm cfg s.sc s.ec (oracle 0) now httl hout
    · intro j hj
      rcases eq_or_ne j i with rfl | hne
      · simp [Function.update_same] at hj
      · rw [Function.update_noteq hne] at hj
        have hcontra := h1 j (Or.inr hj)
        rw [hli] at hcontra
        exact absurd (Option.some.inj hcontra).symm hne
  | done r =>
    have hstep : step cfg oracle now s i = s := by simp only [step, ht]
    rw [hstep]
    exact ⟨h1, h2, h3, h4, h5⟩

lemma runSched_preserves_inv (cfg : Cfg) (oracle : ℕ → UpOutcome) (now : ℤ) {n : ℕ}
    (httl : 0 < cfg.ttl) (hout : handledOutcome cfg (oracle 0) = true)
    (sched : List (Fin n)) (s : CState n) (h : BurstInv now s) :
    BurstInv now (runSched cfg oracle now sched s) := by
  induction sched generalizing s with
  | nil => exact h
  | cons i rest ih =>
    exact ih _ (step_preserves_inv cfg oracle now httl hout s i h)

/-- Concrete configuration with the success-cache TTL set to `0`
(`SEMAPHORE_BALANCE_CACHE_SECONDS=0`), under which a successful fetch
is not cached. -/
def cfgTtlZero : Cfg := { ttl := 0, sender := "SEMAPHORE", nowIso := "2026-01-01T00:00:00" }

/-- Upstream returns the same well-formed JSON success on every call. -/
def oracleOk : ℕ → UpOutcome := fun _ => .jsonOk (.jdict [])

/-- Two threads run one after the other through the full fast-path /
lock / re-check / call sequence. -/
def schedTwo : List (Fin 2) := [0, 0, 0, 0, 1, 1, 1, 1]

/-- Claim C1, counterexample.  With the configured cache TTL `0`, two
`getBalance` requests that both find the success and the error cache
cold, both re-check after acquiring the fetch lock, and both still
issue an upstream call: the run completes with every thread finished
and `2` upstream calls, not exactly one. -/
theorem C1_counterexample :
    (runSched cfgTtlZero oracleOk 0 schedTwo (initBurst 2)).calls = 2 ∧
    (∀ i, ((runSched cfgTtlZero oracleOk 0 schedTwo (initBurst 2)).tpc i).isDone = true) := by
  constructor
  · decide
  · decide

/-- Claim C1 (amended: positive configured TTL, and an upstream outcome
the handler stores — a JSON success body on which the normaliser raises
skips the cache write).  Single-flight: starting from any state in
which all `n` threads are at the fast-path check, the fetch lock is
free, no call has been issued and both caches miss, every interleaving
issues at most one upstream call, and any interleaving that finishes
all threads issues exactly one. -/
theorem C1_single_flight {n : ℕ} (cfg : Cfg) (oracle : ℕ → UpOutcome) (now : ℤ)
    (sched : List (Fin n)) (s0 : CState n)
    (httl : 0 < cfg.ttl) (hout : handledOutcome cfg (oracle 0) = true)
    (hcold : checkCaches s0.sc s0.ec now = none) (_hlock : s0.lock = none)
    (hstart : ∀ i, s0.tpc i = .start) (hcalls : s0.calls = 0) :
    (runSched cfg oracle now sched s0).calls ≤ 1 ∧
    ((∀ i, ((runSched cfg oracle now sched s0).tpc i).isDone = true) → 0 < n →
      (runSched cfg oracle now sched s0).calls = 1) := by
  have hinv0 : BurstInv now s0 := by
    refine ⟨?_, ?_, ?_, ?_, ?_⟩
    · intro i hi
      rcases hi with hi | hi <;> rw [hstart i] at hi <;> simp at hi
    · omega
    · intro _
      refine ⟨hcold, fun i => ?_⟩
      rw [hstart i]
      rfl
    · intro h1
      omega
    · intro i hi
      exact hcalls
  have hinv := runSched_preserves_inv cfg oracle now httl hout sched s0 hinv0
  obtain ⟨g1, g2, g3, g4, g5⟩ := hinv
  refine ⟨g2, fun hdone hn => ?_⟩
  have hne : (runSched cfg oracle now sched s0).calls ≠ 0 := by
    intro hzero
    have := (g3 hzero).2 ⟨0, hn⟩
    rw [hdone ⟨0, hn⟩] at this
    exact absurd this (by simp)
  omega

/-- Witness for `C1_single_flight`: one thread, TTL 60, a stored JSON
success outcome, the pristine cold caches, and the full four-step
schedule. -/
theorem C1_single_flight_witness :
    (runSched { ttl := 60, sender := "S", nowIso := "T" } oracleOk 0
        ([0, 0, 0, 0] : List (Fin 1)) (initBurst 1)).calls ≤ 1 ∧
    ((∀ i, ((runSched { ttl := 60, sender := "S", nowIso := "T" } oracleOk 0
        ([0, 0, 0, 0] : List (Fin 1)) (initBurst 1)).tpc i).isDone = true) → 0 < 1 →
      (runSched { ttl := 60, sender := "S", nowIso := "T" } oracleOk 0
        ([0, 0, 0, 0] : List (Fin 1)) (initBurst 1)).calls = 1) :=
  C1_single_flight { ttl := 60, sender := "S", nowIso := "T" } oracleOk 0
    [0, 0, 0, 0] (initBurst 1) (by decide) (by decide) (by rfl) (by rfl)
    (fun _ => rfl) rfl

/-- Claim C3.  A success cache entry with a payload, status below 400
and TTL `T > 0` is served unchanged (same payload, stored status) by a
`getBalance` read while `now - capturedAt < T` — with no state change
and no upstream call — and is treated as absent once `T ≤ now -
capturedAt`; an entry with TTL `0` is never served. -/
theorem C3_ttl_expiry (c : SuccessCache) (p : BalancePayload) (T now : ℤ)
    (hp : c.payload = some p) (hs : c.status < 400) (hT : c.ttl = T) :
    (0 < T → now - c.timestamp < T →
      readSuccess c now = some (p, c.status) ∧
      ∀ apiKey cfg ec out, apiKey ≠ "" →
        getBalanceRoute apiKey cfg c ec out now = (.ok p c.status, c, ec)) ∧
    (0 < T → T ≤ now - c.timestamp → readSuccess c now = none) ∧
    (T = 0 → readSuccess c now = none) := by
  refine ⟨?_, ?_, ?_⟩
  · intro hpos hfresh
    have hread : readSuccess c now = some (p, c.status) := by
      unfold readSuccess
      rw [hp]
      dsimp only
      rw [if_pos]
      exact ⟨hs, by omega, by omega⟩
    refine ⟨hread, ?_⟩
    intro apiKey cfg ec out hk
    unfold getBalanceRoute
    rw [if_neg (by simpa using hk)]
    unfold checkCaches
    rw [hread]
  · intro hpos hstale
    unfold readSuccess
    rw [hp]
    dsimp only
    rw [if_neg]
    intro hcond
    omega
  · intro hzero
    unfold readSuccess
    rw [hp]
    dsimp only
    rw [if_neg]
    intro hcond
    omega

/-- A concrete canonical payload, as built by the normaliser from the
empty account record. -/
def pW : BalancePayload :=
  { success := true, balance := some (.finite 0),
    account := .jdict [("id", .jnull), ("name", .jstr ""), ("status", .jstr "unknown"),
      ("email", .jstr ""), ("sender", .jstr "SEMAPHORE")],
    raw := .jdict [], stale := false, note := none, retrieved_at := "TZ",
    retry_after := none, last_updated_seconds_ago := none }

/-- A concrete configuration: TTL 60 seconds. -/
def cfgW : Cfg := { ttl := 60, sender := "SEMAPHORE", nowIso := "T" }

/-- Witness for `C3_ttl_expiry`: an entry written at `t = 0` with TTL
60, read at `t = 30` (fresh) and `t = 60` (expired). -/
theorem C3_ttl_expiry_witness :
    (readSuccess ⟨0, 60, some pW, 200, 0⟩ 30 = some (pW, 200) ∧
      getBalanceRoute "key" cfgW ⟨0, 60, some pW, 200, 0⟩ initErrorCache .transport 30 =
        (.ok pW 200, ⟨0, 60, some pW, 200, 0⟩, initErrorCache)) ∧
    readSuccess ⟨0, 60, some pW, 200, 0⟩ 60 = none := by
  have h30 := C3_ttl_expiry ⟨0, 60, some pW, 200, 0⟩ pW 60 30 rfl (by norm_num) rfl
  have h60 := C3_ttl_expiry ⟨0, 60, some pW, 200, 0⟩ pW 60 60 rfl (by norm_num) rfl
  refine ⟨?_, h60.2.1 (by norm_num) (by norm_num)⟩
  have hfresh := h30.1 (by norm_num) (by norm_num)
  exact ⟨hfresh.1, hfresh.2 "key" cfgW initErrorCache .transport (by decide)⟩

/-- Claim C2.  When the upstream account call fails with effective
status 429 and the success cache holds a payload with status below 400
and a preserved (nonzero) `retrieved_timestamp`, the response is HTTP
200 carrying the stale-decorated payload: `stale` is true,
`last_updated_seconds_ago` is the elapsed time since the preserved
`retrieved_timestamp` (70 when the success was fetched 70 seconds
earlier), and the re-stored entry keeps `retrieved_timestamp`
unchanged while the error cache is cleared. -/
theorem C2_stale_fallback (cfg : Cfg) (sc : SuccessCache) (ec : ErrorCache)
    (status : ℤ) (hdr : Option String) (bodyJson : Option JVal) (text : String)
    (now : ℤ) (cached : BalancePayload)
    (hp : sc.payload = some cached) (hs : sc.status < 400)
    (hr : sc.retrieved_timestamp ≠ 0)
    (heff : effStatus status hdr (errBodyOf bodyJson text) = 429) :
    fetchAndStore cfg sc ec (.httpErr status hdr bodyJson text) now =
      (.ok (stalePayloadOf cached (retryAfterOf cfg hdr) now sc.retrieved_timestamp) 200,
       { timestamp := now, ttl := retryAfterOf cfg hdr,
         payload := some (stalePayloadOf cached (retryAfterOf cfg hdr) now sc.retrieved_timestamp),
         status := 200, retrieved_timestamp := sc.retrieved_timestamp },
       initErrorCache) ∧
    (stalePayloadOf cached (retryAfterOf cfg hdr) now sc.retrieved_timestamp).stale = true ∧
    (stalePayloadOf cached (retryAfterOf cfg hdr) now sc.retrieved_timestamp).success = true ∧
    (stalePayloadOf cached (retryAfterOf cfg hdr) now sc.retrieved_timestamp).last_updated_seconds_ago
      = some (some (max (now - sc.retrieved_timestamp) 0)) ∧
    (now - sc.retrieved_timestamp = 70 →
      (stalePayloadOf cached (retryAfterOf cfg hdr) now sc.retrieved_timestamp).last_updated_seconds_ago
        = some (some 70)) := by
  have hdec : decide (sc.status < 400) = true := decide_eq_true hs
  refine ⟨?_, rfl, rfl, ?_, ?_⟩
  · simp only [fetchAndStore]
    rw [heff]
    rw [if_pos rfl]
    rw [hp, hdec]
    dsimp only
    rw [if_pos hr]
  · unfold stalePayloadOf
    dsimp only
    rw [if_pos hr]
  · intro h70
    unfold stalePayloadOf
    dsimp only
    rw [if_pos hr, h70]
    norm_num

/-- Witness for `C2_stale_fallback`: success cached with
`retrieved_timestamp = 10`, a plain upstream 429 at `now = 80` (70
seconds later): served stale with `last_updated_seconds_ago = 70`. -/
theorem C2_stale_fallback_witness :
    fetchAndStore cfgW ⟨0, 60, some pW, 200, 10⟩ initErrorCache
        (.httpErr 429 none none "busy") 80 =
      (.ok (stalePayloadOf pW (retryAfterOf cfgW none) 80 10) 200,
       { timestamp := 80, ttl := retryAfterOf cfgW none,
         payload := some (stalePayloadOf pW (retryAfterOf cfgW none) 80 10),
         status := 200, retrieved_timestamp := 10 },
       initErrorCache) ∧
    (stalePayloadOf pW (retryAfterOf cfgW none) 80 10).stale = true ∧
    (stalePayloadOf pW (retryAfterOf cfgW none) 80 10).success = true ∧
    (stalePayloadOf pW (retryAfterOf cfgW none) 80 10).last_updated_seconds_ago
      = some (some (max ((80 : ℤ) - 10) 0)) ∧
    ((80 : ℤ) - 10 = 70 →
      (stalePayloadOf pW (retryAfterOf cfgW none) 80 10).last_updated_seconds_ago
        = some (some 70)) := by
  have h := C2_stale_fallback cfgW ⟨0, 60, some pW, 200, 10⟩ initErrorCache
    429 none none "busy" 80 pW rfl (by norm_num) (by norm_num) (by decide)
  exact h

/-- Claim C4, counterexample.  A `Retry-After` header that is present
but empty is falsy in the source's `if retry_after_header:` test, so an
upstream 503 carrying it (with a body that does not mention rate
limits) keeps effective status 503 — it is not coerced to 429 as the
claim's "header is present" condition requires. -/
theorem C4_counterexample :
    effStatus 503 (some "") (errBodyOf (some (.jdict [])) "") = 503 ∧
    effStatus 503 (some "") (errBodyOf (some (.jdict [])) "") ≠ 429 ∧
    (fetchAndStore cfgW initSuccessCache initErrorCache
        (.httpErr 503 (some "") (some (.jdict [])) "") 0).1 =
      .err { error := .jdict [], retry_after := none, details := none } 503 := by
  refine ⟨by decide, by decide, ?_⟩
  rfl

/-- Claim C4 (amended: the header must be present **and non-empty** to
trigger the coercion).  Rate-limit coercion on upstream HTTP errors:
a non-429 status with a non-empty `Retry-After` header, or with a
falsy header but a body whose flattened text contains "rate limit",
gets effective status 429; a 503 with `Retry-After: 12` produces a 429
error response with `retry_after = 12`; an absent or unparseable header
falls back to the configured TTL (or 30) and the result is always
floored at 5. -/
theorem C4_rate_limit_coercion (cfg : Cfg) :
    (∀ status hdr (h : String) body, status ≠ 429 → hdr = some h → h ≠ "" →
      effStatus status hdr body = 429) ∧
    (∀ status hdr body, status ≠ 429 → hdrTruthy hdr = false →
      isRateLimitPayload body = true → effStatus status hdr body = 429) ∧
    (∀ (sc : SuccessCache) (ec : ErrorCache) bodyJson text now, sc.payload = none →
      fetchAndStore cfg sc ec (.httpErr 503 (some "12") bodyJson text) now =
        (.err { error := .jstr "Semaphore rate limit reached. Please wait before refreshing the balance.",
                retry_after := some 12, details := some (errBodyOf bodyJson text) } 429,
         sc,
         { timestamp := now, ttl := 12,
           payload := some { error := .jstr "Semaphore rate limit reached. Please wait before refreshing the balance.",
                             retry_after := some 12, details := some (errBodyOf bodyJson text) },
           status := 429 })) ∧
    (retryAfterOf cfg none = max (if 0 < cfg.ttl then cfg.ttl else 30) 5) ∧
    (∀ h, pyParseInt h = none →
      retryAfterOf cfg (some h) = max (if 0 < cfg.ttl then cfg.ttl else 30) 5) ∧
    (∀ hdr, 5 ≤ retryAfterOf cfg hdr) := by
  refine ⟨?_, ?_, ?_, ?_, ?_, ?_⟩
  · intro status hdr h body hne hsome hnee
    unfold effStatus
    rw [if_pos hne]
    rw [if_pos]
    unfold hdrTruthy
    rw [hsome]
    simpa using hnee
  · intro status hdr body hne hfalsy hrl
    unfold effStatus
    rw [if_pos hne]
    rw [if_neg (by simp [hfalsy]), if_pos hrl]
  · intro sc ec bodyJson text now hpnone
    have heff : effStatus 503 (some "12") (errBodyOf bodyJson text) = 429 := by
      unfold effStatus
      rw [if_pos (by decide : (503 : ℤ) ≠ 429)]
      rw [if_pos (by decide : hdrTruthy (some "12") = true)]
    have hra : retryAfterOf cfg (some "12") = 12 := by
      unfold retryAfterOf
      dsimp only
      have h12 : pyParseInt "12" = some 12 := by decide
      rw [h12]
      exact max_eq_left (by norm_num)
    simp only [fetchAndStore]
    rw [heff]
    rw [if_pos rfl]
    rw [hpnone]
    dsimp only
    rw [hra]
  · rfl
  · intro h hnone
    unfold retryAfterOf
    dsimp only
    rw [hnone]
    rfl
  · intro hdr
    exact retryAfterOf_ge_five cfg hdr

/-- Witness for `C4_rate_limit_coercion` at a concrete configuration:
a 503 with non-empty header and a 500 with a rate-limit body both
coerce to 429, the 503/12 pipeline, and the default/floor facts. -/
theorem C4_rate_limit_coercion_witness :
    effStatus 503 (some "12") (.jdict []) = 429 ∧
    effStatus 500 none (.jdict [("error", .jstr "Rate Limit exceeded")]) = 429 ∧
    fetchAndStore cfgW initSuccessCache initErrorCache
        (.httpErr 503 (some "12") (some (.jdict [])) "") 0 =
      (.err { error := .jstr "Semaphore rate limit reached. Please wait before refreshing the balance.",
              retry_after := some 12, details := some (errBodyOf (some (.jdict [])) "") } 429,
       initSuccessCache,
       { timestamp := 0, ttl := 12,
         payload := some { error := .jstr "Semaphore rate limit reached. Please wait before refreshing the balance.",
                           retry_after := some 12, details := some (errBodyOf (some (.jdict [])) "") },
         status := 429 }) ∧
    retryAfterOf cfgW none = max (if 0 < cfgW.ttl then cfgW.ttl else 30) 5 ∧
    retryAfterOf cfgW (some "soon") = max (if 0 < cfgW.ttl then cfgW.ttl else 30) 5 ∧
    5 ≤ retryAfterOf cfgW (some "3") := by
  have h := C4_rate_limit_coercion cfgW
  exact ⟨h.1 503 (some "12") "12" (.jdict []) (by decide) rfl (by decide),
    h.2.1 500 none (.jdict [("error", .jstr "Rate Limit exceeded")]) (by decide) rfl (by decide),
    h.2.2.1 initSuccessCache initErrorCache (some (.jdict [])) "" 0 rfl,
    h.2.2.2.1,
    h.2.2.2.2.1 "soon" (by decide),
    h.2.2.2.2.2 (some "3")⟩

/-- Claim C5 (code bug).  The normaliser is not total: when the
dispatched account record is not a dict — here the JSON list `[5]`,
whose first element the source selects and then calls `.get` on — it
raises `AttributeError` (embedded as `none`) instead of degrading to
defaults; on the other hand every input whose dispatched record is a
dict does produce the canonical record with `success`, `stale` and the
timestamp. -/
theorem C5_normalizer_crash :
    buildBalancePayload "SEMAPHORE" "T" (.jlist [.jint 5]) = none ∧
    buildBalancePayload "SEMAPHORE" "T" (.jdict [("account", .jstr "x")]) = none ∧
    (∀ (sd iso : String) (raw : JVal) (kvs : List (String × JVal)),
      accountData raw = .jdict kvs →
      ∃ p, buildBalancePayload sd iso raw = some p ∧
        p.success = true ∧ p.stale = false ∧ p.retrieved_at = iso ++ "Z") := by
  refine ⟨rfl, rfl, ?_⟩
  intro sd iso raw kvs hd
  unfold buildBalancePayload
  rw [hd]
  exact ⟨_, rfl, rfl, rfl, rfl⟩

/-- Claim C6.  Whenever the resolved balance attribute either fails
numeric coercion (`float` raises) or coerces to a non-finite value, the
normalised balance is exactly `0.0`. -/
theorem C6_nonfinite_guard (sd iso : String) (raw : JVal) (kvs : List (String × JVal))
    (hd : accountData raw = .jdict kvs)
    (hbad : pyFloatCast (balanceRaw kvs) = none ∨
      ∃ x, pyFloatCast (balanceRaw kvs) = some x ∧ x.isFinite = false) :
    ∃ p, buildBalancePayload sd iso raw = some p ∧ p.balance = some (.finite 0) := by
  have hres : resolveBalance kvs = .finite 0 := by
    unfold resolveBalance toFloatPy
    rcases hbad with hnone | ⟨x, hx, hxf⟩
    · rw [hnone]
      rfl
    · rw [hx]
      simp [Option.getD, hxf]
  unfold buildBalancePayload
  rw [hd]
  refine ⟨_, rfl, ?_⟩
  dsimp only
  rw [hres]

/-- Witness for `C6_nonfinite_guard`: upstream balance `"nan"` and
`"inf"` both normalise to `0.0`. -/
theorem C6_nonfinite_guard_witness :
    (∃ p, buildBalancePayload "S" "T" (.jdict [("balance", .jstr "nan")]) = some p ∧
      p.balance = some (.finite 0)) ∧
    (∃ p, buildBalancePayload "S" "T" (.jdict [("balance", .jstr "inf")]) = some p ∧
      p.balance = some (.finite 0)) :=
  ⟨C6_nonfinite_guard "S" "T" (.jdict [("balance", .jstr "nan")]) [("balance", .jstr "nan")]
      rfl (Or.inr ⟨.nan, by decide, rfl⟩),
   C6_nonfinite_guard "S" "T" (.jdict [("balance", .jstr "inf")]) [("balance", .jstr "inf")]
      rfl (Or.inr ⟨.inf, by decide, rfl⟩)⟩

/-- Claim C7, counterexample.  With `balance` present but `0` (falsy),
the source's `or`-chain falls through to `credit_balance`: the record
`{"balance": 0, "credit_balance": 5}` normalises to balance `5.0`, not
the `0.0` the claim's "whenever `balance` is present its numeric value
is the one returned" requires. -/
theorem C7_counterexample :
    dget [("balance", .jint 0), ("credit_balance", .jint 5)] "balance" = .jint 0 ∧
    (buildBalancePayload "S" "T"
        (.jdict [("balance", .jint 0), ("credit_balance", .jint 5)])).map
      (fun p => p.balance) = some (some (.finite 5)) ∧
    PyFloat.finite 5 ≠ PyFloat.finite 0 := by
  refine ⟨rfl, rfl, by decide⟩

/-- Claim C7 (amended: the chain selects the first **truthy** value, so
`balance` wins only when it is truthy — a falsy `balance` such as `0`
falls through).  The resolved attribute is the first truthy of
`balance`, `credit_balance`, `credits`, else `0`, and the normalised
balance is its clamped coercion. -/
theorem C7_balance_chain (kvs : List (String × JVal)) :
    balanceRaw kvs =
      (if pyTruthy (dget kvs "balance") then dget kvs "balance"
       else if pyTruthy (dget kvs "credit_balance") then dget kvs "credit_balance"
       else if pyTruthy (dget kvs "credits") then dget kvs "credits"
       else .jint 0) ∧
    (∀ v, dget kvs "balance" = v → pyTruthy v = true → balanceRaw kvs = v) ∧
    (∀ (sd iso : String) (raw : JVal), accountData raw = .jdict kvs →
      ∃ p, buildBalancePayload sd iso raw = some p ∧
        p.balance = some (resolveBalance kvs)) := by
  refine ⟨?_, ?_, ?_⟩
  · unfold balanceRaw pyOr
    by_cases h1 : pyTruthy (dget kvs "balance") = true
    · simp [h1]
    · have h1f : pyTruthy (dget kvs "balance") = false := by
        revert h1
        cases pyTruthy (dget kvs "balance") <;> simp
      by_cases h2 : pyTruthy (dget kvs "credit_balance") = true
      · simp [h1f, h2]
      · have h2f : pyTruthy (dget kvs "credit_balance") = false := by
          revert h2
          cases pyTruthy (dget kvs "credit_balance") <;> simp
        by_cases h3 : pyTruthy (dget kvs "credits") = true
        · simp [h1f, h2f, h3]
        · have h3f : pyTruthy (dget kvs "credits") = false := by
            revert h3
            cases pyTruthy (dget kvs "credits") <;> simp
          simp [h1f, h2f, h3f]
  · intro v hv htruthy
    unfold balanceRaw pyOr
    simp [hv, htruthy]
  · intro sd iso raw hd
    unfold buildBalancePayload
    rw [hd]
    exact ⟨_, rfl, rfl⟩

/-- Witness for `C7_balance_chain`: a truthy `balance` of `"12.5"` wins
over `credit_balance`. -/
theorem C7_balance_chain_witness :
    balanceRaw [("balance", .jstr "12.5"), ("credit_balance", .jint 7)] = .jstr "12.5" ∧
    (∃ p, buildBalancePayload "S" "T"
        (.jdict [("balance", .jstr "12.5"), ("credit_balance", .jint 7)]) = some p ∧
      p.balance = some
        (resolveBalance [("balance", .jstr "12.5"), ("credit_balance", .jint 7)])) := by
  have h := C7_balance_chain [("balance", .jstr "12.5"), ("credit_balance", .jint 7)]
  exact ⟨h.2.1 (.jstr "12.5") rfl (by decide),
    h.2.2 "S" "T" (.jdict [("balance", .jstr "12.5"), ("credit_balance", .jint 7)]) rfl⟩

/-- Claim C8.  The sliding-window rate limiter: `is_allowed` retains
exactly the timestamps strictly inside the trailing window plus the
newly recorded `now`, rejects without recording at capacity, otherwise
records `now` and stays within capacity; `get_retry_after` is the
oldest retained timestamp plus the window minus `now`, clamped at 0,
and 0 with nothing recorded; and the `max=3, window=60` scenario:
three admits at `t=0` succeed, a fourth at `t=1` is rejected with
retry-after 59, and an admit at `t=61` succeeds. -/
theorem C8_rate_limiter :
    (∀ (l : List ℤ) (m : ℕ) (w now : ℤ),
      (∀ t ∈ (isAllowed l m w now).2, (t ∈ l ∧ now - w < t) ∨ t = now) ∧
      (m ≤ (pruneWindow l now w).length →
        isAllowed l m w now = (false, pruneWindow l now w)) ∧
      ((pruneWindow l now w).length < m →
        isAllowed l m w now = (true, pruneWindow l now w ++ [now]) ∧
        (isAllowed l m w now).2.length ≤ m)) ∧
    (∀ w now, getRetryAfter [] w now = 0) ∧
    (∀ (t : ℤ) (ts : List ℤ) (w now : ℤ),
      getRetryAfter (t :: ts) w now = max (oldestOf t ts + w - now) 0) ∧
    (∀ l w now, 0 ≤ getRetryAfter l w now) ∧
    (isAllowed [] 3 60 0 = (true, [0]) ∧
      isAllowed [0] 3 60 0 = (true, [0, 0]) ∧
      isAllowed [0, 0] 3 60 0 = (true, [0, 0, 0]) ∧
      isAllowed [0, 0, 0] 3 60 1 = (false, [0, 0, 0]) ∧
      getRetryAfter [0, 0, 0] 60 1 = 59 ∧
      (isAllowed [0, 0, 0] 3 60 61).1 = true) := by
  refine ⟨?_, ?_, ?_, ?_, by decide, by decide, by decide, by decide, by decide, by decide⟩
  · intro l m w now
    refine ⟨?_, ?_, ?_⟩
    · intro t ht
      unfold isAllowed at ht
      dsimp only at ht
      by_cases hcap : m ≤ (pruneWindow l now w).length
      · rw [if_pos hcap] at ht
        dsimp only at ht
        have hmem := List.mem_filter.mp ht
        exact Or.inl ⟨hmem.1, by simpa using hmem.2⟩
      · rw [if_neg hcap] at ht
        dsimp only at ht
        rcases List.mem_append.mp ht with hin | hnow
        · have hmem := List.mem_filter.mp hin
          exact Or.inl ⟨hmem.1, by simpa using hmem.2⟩
        · exact Or.inr (by simpa using hnow)
    · intro hcap
      unfold isAllowed
      dsimp only
      rw [if_pos hcap]
    · intro hlt
      have heq : isAllowed l m w now = (true, pruneWindow l now w ++ [now]) := by
        unfold isAllowed
        dsimp only
        rw [if_neg (by omega)]
      refine ⟨heq, ?_⟩
      rw [heq]
      dsimp only
      rw [List.length_append]
      simp only [List.length_singleton]
      omega
  · intro w now
    rfl
  · intro t ts w now
    unfold getRetryAfter
    dsimp only
    by_cases h : now < oldestOf t ts + w
    · rw [if_pos h, max_eq_left (by omega)]
    · rw [if_neg h, max_eq_right (by omega)]
  · intro l w now
    cases l with
    | nil => norm_num [getRetryAfter]
    | cons t ts =>
      unfold getRetryAfter
      dsimp only
      by_cases h : now < oldestOf t ts + w
      · rw [if_pos h]
        omega
      · rw [if_neg h]

/-- Witness for `C8_rate_limiter`: the capacity rejection and the
under-capacity admission applied at the scenario's fourth request. -/
theorem C8_rate_limiter_witness :
    isAllowed [0, 0, 0] 3 60 1 = (false, [0, 0, 0]) ∧
    isAllowed [0, 0, 0] 3 60 61 = (true, [] ++ [61]) ∧
    getRetryAfter [0, 0, 0] 60 1 = max (oldestOf 0 [0, 0] + 60 - 1) 0 := by
  refine ⟨?_, ?_, (C8_rate_limiter.2.2.1 0 [0, 0] 60 1)⟩
  · exact (C8_rate_limiter.1 [0, 0, 0] 3 60 1).2.1 (by decide)
  · exact ((C8_rate_limiter.1 [0, 0, 0] 3 60 61).2.2 (by decide)).1

/-- A 161-character message: one leading space and 160 `a`s. -/
def msg161 : String := ⟨' ' :: List.replicate 160 'a'⟩

/-- A 160-character message of `a`s. -/
def msg160 : String := ⟨List.replicate 160 'a'⟩

set_option maxRecDepth 8000 in
/-- Claim C9, counterexample.  `send_sms` strips the message before
validating, so this 161-character message (a leading space plus 160
characters) is forwarded upstream, not rejected with `MessageTooLong`
as the claim requires for every message of 161 or more characters. -/
theorem C9_counterexample :
    msg161.length = 161 ∧
    sendSmsRoute "key" "SEMAPHORE"
        (some (.jdict [("message", .jstr msg161), ("number", .jstr "09171234567")])) =
      .forward "key" "09171234567" msg160 "SEMAPHORE" := by
  constructor
  · decide
  · rfl

/-- Claim C9 (amended: lengths are measured on the
whitespace-stripped message).  A request whose recipients normalise to
empty is rejected with the missing-recipients error; one with
recipients but an empty stripped message is rejected with the
missing-message error; with non-empty recipients, a message whose
stripped form has exactly 160 characters is forwarded upstream, and
one whose stripped form exceeds 160 characters is rejected with the
`MessageTooLong` error and status 400.  On each of the three
validation failures the outcome is a rejection and never `forward` —
no upstream call is made. -/
theorem C9_message_boundary (apiKey sd : String) (kvs : List (String × JVal))
    (m sv r : String)
    (hk : apiKey ≠ "")
    (hm : pyOr (dget kvs "message") (.jstr "") = .jstr m)
    (hsv : pyOr (pyOr (dget kvs "sender") (dget kvs "sendername")) (.jstr "") = .jstr sv)
    (hr : normaliseRecipients (pyOr (pyOr (dget kvs "number") (dget kvs "numbers"))
      (dget kvs "recipients")) = r) :
    (r = "" →
      sendSmsRoute apiKey sd (some (.jdict kvs)) =
        .rejected "At least one recipient number is required." 400 ∧
      ∀ a b c d, sendSmsRoute apiKey sd (some (.jdict kvs)) ≠ .forward a b c d) ∧
    (r ≠ "" → pyStrip m = "" →
      sendSmsRoute apiKey sd (some (.jdict kvs)) =
        .rejected "Message content is required." 400 ∧
      ∀ a b c d, sendSmsRoute apiKey sd (some (.jdict kvs)) ≠ .forward a b c d) ∧
    (r ≠ "" → (pyStrip m).length = 160 →
      sendSmsRoute apiKey sd (some (.jdict kvs)) =
        .forward apiKey r (pyStrip m)
          (strTake (if pyStrip sv == "" then sd else pyStrip sv) 11)) ∧
    (r ≠ "" → 160 < (pyStrip m).length →
      sendSmsRoute apiKey sd (some (.jdict kvs)) =
        .rejected "Message exceeds 160 character limit for single SMS segment." 400 ∧
      ∀ a b c d, sendSmsRoute apiKey sd (some (.jdict kvs)) ≠ .forward a b c d) := by
  have hknot : ¬ ((apiKey == "") = true) := by simpa using hk
  have hpay : (if pyTruthy (JVal.jdict kvs) = true then JVal.jdict kvs else JVal.jdict [])
      = JVal.jdict kvs := by
    cases kvs with
    | nil => simp [pyTruthy]
    | cons a as => simp [pyTruthy]
  have hcore : sendSmsRoute apiKey sd (some (.jdict kvs)) =
      (if r == "" then SendOutcome.rejected "At least one recipient number is required." 400
       else if pyStrip m == "" then .rejected "Message content is required." 400
       else if 160 < (pyStrip m).length then
         .rejected "Message exceeds 160 character limit for single SMS segment." 400
       else .forward apiKey r (pyStrip m)
         (strTake (if pyStrip sv == "" then sd else pyStrip sv) 11)) := by
    unfold sendSmsRoute
    rw [if_neg hknot]
    dsimp only
    rw [hpay]
    dsimp only
    rw [hm]
    dsimp only
    rw [hsv]
    dsimp only
    rw [hr]
  refine ⟨?_, ?_, ?_, ?_⟩
  · intro hremp
    have hrej : sendSmsRoute apiKey sd (some (.jdict kvs)) =
        .rejected "At least one recipient number is required." 400 := by
      rw [hcore, if_pos (by simpa using hremp)]
    refine ⟨hrej, fun a b c d hcontra => ?_⟩
    rw [hrej] at hcontra
    cases hcontra
  · intro hrne hmemp
    have hrej : sendSmsRoute apiKey sd (some (.jdict kvs)) =
        .rejected "Message content is required." 400 := by
      rw [hcore, if_neg (by simpa using hrne), if_pos (by simpa using hmemp)]
    refine ⟨hrej, fun a b c d hcontra => ?_⟩
    rw [hrej] at hcontra
    cases hcontra
  · intro hrne h160
    have hmne : ¬ ((pyStrip m == "") = true) := by
      intro hb
      have hemp : pyStrip m = "" := by simpa using hb
      rw [hemp] at h160
      simp at h160
    rw [hcore, if_neg (by simpa using hrne), if_neg hmne, if_neg (by omega)]
  · intro hrne hgt
    have hmne : ¬ ((pyStrip m == "") = true) := by
      intro hb
      have hemp : pyStrip m = "" := by simpa using hb
      rw [hemp] at hgt
      simp at hgt
    have hrej : sendSmsRoute apiKey sd (some (.jdict kvs)) =
        .rejected "Message exceeds 160 character limit for single SMS segment." 400 := by
      rw [hcore, if_neg (by simpa using hrne), if_neg hmne, if_pos hgt]
    refine ⟨hrej, fun a b c d hcontra => ?_⟩
    rw [hrej] at hcontra
    cases hcontra

set_option maxRecDepth 8000 in
/-- Witness for `C9_message_boundary`: a 160-character message with one
recipient is forwarded; the same message without recipients, and a
whitespace-only message with a recipient, are rejected and not
forwarded. -/
theorem C9_message_boundary_witness :
    (sendSmsRoute "key" "SEMAPHORE"
        (some (.jdict [("message", .jstr msg160), ("number", .jstr "0917")])) =
      .forward "key" "0917" (pyStrip msg160)
        (strTake (if pyStrip "" == "" then "SEMAPHORE" else pyStrip "") 11)) ∧
    (sendSmsRoute "key" "SEMAPHORE" (some (.jdict [("message", .jstr msg160)])) =
        .rejected "At least one recipient number is required." 400 ∧
      ∀ a b c d, sendSmsRoute "key" "SEMAPHORE" (some (.jdict [("message", .jstr msg160)])) ≠
        .forward a b c d) ∧
    (sendSmsRoute "key" "SEMAPHORE"
        (some (.jdict [("message", .jstr "  "), ("number", .jstr "0917")])) =
        .rejected "Message content is required." 400 ∧
      ∀ a b c d, sendSmsRoute "key" "SEMAPHORE"
        (some (.jdict [("message", .jstr "  "), ("number", .jstr "0917")])) ≠
        .forward a b c d) :=
  ⟨(C9_message_boundary "key" "SEMAPHORE" [("message", .jstr msg160), ("number", .jstr "0917")]
      msg160 "" "0917" (by decide) rfl rfl rfl).2.2.1 (by decide) (by decide),
   (C9_message_boundary "key" "SEMAPHORE" [("message", .jstr msg160)]
      msg160 "" "" (by decide) rfl rfl rfl).1 rfl,
   (C9_message_boundary "key" "SEMAPHORE" [("message", .jstr "  "), ("number", .jstr "0917")]
      "  " "" "0917" (by decide) rfl rfl rfl).2.1 (by decide) (by decide)⟩

/-- Claim C10.  A configured key that strips to empty, starts
(case-insensitively) with `SET_`, `ENTER_`, `REPLACE_` or `YOUR_`, or
contains `CHANGE` case-insensitively, normalises to the empty string,
and with the empty normalised key both endpoints return the fixed
not-configured 500 error without touching caches or the upstream. -/
theorem C10_placeholder_key (raw : String)
    (h : pyStrip raw = "" ∨
      startsWithStr (upperStr (pyStrip raw)) "SET_" = true ∨
      startsWithStr (upperStr (pyStrip raw)) "ENTER_" = true ∨
      startsWithStr (upperStr (pyStrip raw)) "REPLACE_" = true ∨
      startsWithStr (upperStr (pyStrip raw)) "YOUR_" = true ∨
      strHasSub (upperStr (pyStrip raw)) "CHANGE" = true) :
    normaliseApiKey (some raw) = "" ∧
    (∀ sd body, sendSmsRoute (normaliseApiKey (some raw)) sd body =
      .notConfigured "SMS service is not configured on the server.") ∧
    (∀ cfg sc ec out now, getBalanceRoute (normaliseApiKey (some raw)) cfg sc ec out now =
      (.err notConfiguredPayload 500, sc, ec)) := by
  have hnorm : normaliseApiKey (some raw) = "" := by
    simp only [normaliseApiKey]
    by_cases h0 : (raw == "") = true
    · rw [if_pos h0]
    · rw [if_neg h0]
      by_cases h1 : (pyStrip raw == "") = true
      · rw [if_pos h1]
      · rw [if_neg h1]
        have hcond : (startsWithStr (upperStr (pyStrip raw)) "SET_"
            || startsWithStr (upperStr (pyStrip raw)) "ENTER_"
            || startsWithStr (upperStr (pyStrip raw)) "REPLACE_"
            || startsWithStr (upperStr (pyStrip raw)) "YOUR_"
            || strHasSub (upperStr (pyStrip raw)) "CHANGE") = true := by
          rcases h with hc | hc | hc | hc | hc | hc
          · exact absurd hc (by simpa using h1)
          all_goals simp [hc]
        rw [if_pos hcond]
  refine ⟨hnorm, ?_, ?_⟩
  · intro sd body
    rw [hnorm]
    rfl
  · intro cfg sc ec out now
    rw [hnorm]
    rfl

/-- Witness for `C10_placeholder_key`: the key `" YOUR_API_KEY "`. -/
theorem C10_placeholder_key_witness :
    normaliseApiKey (some " YOUR_API_KEY ") = "" ∧
    sendSmsRoute (normaliseApiKey (some " YOUR_API_KEY ")) "SEMAPHORE"
        (some (.jdict [("message", .jstr "hi"), ("number", .jstr "0917")])) =
      .notConfigured "SMS service is not configured on the server." ∧
    getBalanceRoute (normaliseApiKey (some " YOUR_API_KEY ")) cfgW initSuccessCache
        initErrorCache .transport 0 =
      (.err notConfiguredPayload 500, initSuccessCache, initErrorCache) := by
  have h := C10_placeholder_key " YOUR_API_KEY " (Or.inr (Or.inr (Or.inr (Or.inr
    (Or.inl (by decide))))))
  exact ⟨h.1, h.2.1 "SEMAPHORE" (some (.jdict [("message", .jstr "hi"), ("number", .jstr "0917")])),
    h.2.2 cfgW initSuccessCache initErrorCache .transport 0⟩
